import Mathlib

/-!
Verification development for the KeepItAllBot repository: a shallow
embedding of the job pipeline (rate limiter, URL validators, downloader
size gate, job processor with retry/backoff, worker loop, message
handler) together with theorems settling the specification claims.

Conventions of the embedding:
* wall-clock timestamps are rationals (Python `time.time()` floats);
* machine integers are `Int`/`Nat`;
* the filesystem working directory is a `List String` of file names;
* external collaborators (yt-dlp, Telegram) are oracles: their outcomes
  are explicit parameters, and the embedded code reacts to them exactly
  as the Python source does.
-/

set_option linter.unusedVariables false

/-- Python `int()` applied to a rational: truncation toward zero. -/
def pyTrunc (q : ℚ) : ℤ := if 0 ≤ q then ⌊q⌋ else -⌊-q⌋

/-- Python `min` over a list of rationals (`none` on the empty list). -/
def listMin : List ℚ → Option ℚ
  | [] => none
  | x :: xs =>
    some (match listMin xs with
      | none => x
      | some m => min x m)

theorem listMin_mem : ∀ {l : List ℚ} {m : ℚ}, listMin l = some m → m ∈ l := by
  intro l
  induction l with
  | nil => intro m h; simp [listMin] at h
  | cons x xs ih =>
    intro m h
    simp only [listMin] at h
    cases hxs : listMin xs with
    | none => rw [hxs] at h; simp at h; simp [h]
    | some m' =>
      rw [hxs] at h
      simp at h
      rcases min_cases x m' with ⟨he, _⟩ | ⟨he, _⟩
      · rw [he] at h; simp [h]
      · rw [he] at h
        right
        exact h ▸ ih hxs

theorem listMin_le : ∀ {l : List ℚ} {m : ℚ}, listMin l = some m →
    ∀ x ∈ l, m ≤ x := by
  intro l
  induction l with
  | nil => intro m h; simp [listMin] at h
  | cons y ys ih =>
    intro m h x hx
    simp only [listMin] at h
    cases hys : listMin ys with
    | none =>
      rw [hys] at h; simp at h
      cases ys with
      | nil => simp at hx; subst h; subst hx; rfl
      | cons a b => simp [listMin] at hys
    | some m' =>
      rw [hys] at h
      simp at h
      subst h
      rcases List.mem_cons.mp hx with rfl | hx'
      · exact min_le_left _ _
      · exact le_trans (min_le_right _ _) (ih hys x hx')

theorem listMin_isSome : ∀ {l : List ℚ}, l ≠ [] → ∃ m, listMin l = some m := by
  intro l h
  cases l with
  | nil => exact absurd rfl h
  | cons x xs => exact ⟨_, rfl⟩

/-- Uniqueness of the minimum: a member below every member is the result
of `listMin`. -/
theorem listMin_eq_some {l : List ℚ} {m : ℚ} (hm : m ∈ l)
    (hle : ∀ x ∈ l, m ≤ x) : listMin l = some m := by
  obtain ⟨m', hm'⟩ := listMin_isSome (l := l) (by rintro rfl; simp at hm)
  have h1 : m' ≤ m := listMin_le hm' m hm
  have h2 : m ≤ m' := hle m' (listMin_mem hm')
  rw [hm', le_antisymm h1 h2]

/-- Pointwise implication between predicates gives a length inequality
between the filtered lists. -/
theorem length_filter_le_of_imp {l : List ℚ} {p q : ℚ → Bool}
    (himp : ∀ x ∈ l, q x = true → p x = true) :
    (l.filter q).length ≤ (l.filter p).length := by
  induction l with
  | nil => simp
  | cons x xs ih =>
    have himp' : ∀ y ∈ xs, q y = true → p y = true := fun y hy =>
      himp y (List.mem_cons_of_mem _ hy)
    by_cases hq : q x = true
    · have hp : p x = true := himp x (List.mem_cons_self x xs) hq
      simp [List.filter_cons, hq, hp]
      exact ih himp'
    · simp at hq
      have := ih himp'
      cases hp : p x <;> simp [List.filter_cons, hq, hp] <;> omega

/-- If the new predicate implies the old one everywhere on `l`, but some
member satisfying the old predicate fails the new one, then filtering
by the new predicate is strictly shorter. -/
theorem length_filter_lt_of_strict {l : List ℚ} {p q : ℚ → Bool}
    (himp : ∀ x ∈ l, q x = true → p x = true) {m : ℚ} (hm : m ∈ l)
    (hp : p m = true) (hq : q m = false) :
    (l.filter q).length < (l.filter p).length := by
  induction l with
  | nil => simp at hm
  | cons x xs ih =>
    have himp' : ∀ y ∈ xs, q y = true → p y = true := fun y hy =>
      himp y (List.mem_cons_of_mem _ hy)
    rcases List.mem_cons.mp hm with rfl | hm'
    · have hle : (xs.filter q).length ≤ (xs.filter p).length :=
        length_filter_le_of_imp himp'
      simp [List.filter_cons, hq, hp]
      omega
    · cases hqx : q x with
      | true =>
        have hpx : p x = true := himp x (List.mem_cons_self x xs) hqx
        simp [List.filter_cons, hqx, hpx]
        exact ih himp' hm'
      | false =>
        have hlt := ih himp' hm'
        cases hpx : p x <;> simp [List.filter_cons, hqx, hpx] <;> omega


/-! ## Rate limiter (src/utils/rate_limiter.py)

`RateLimiter` keeps, per user id, the list of request timestamps.  The
Python `defaultdict(list)` is a total function defaulting to `[]`.
Methods that prune state return the updated limiter alongside their
result, mirroring the in-place mutation of `self._requests`. -/

structure RateLimiter where
  max_requests : ℕ
  window_seconds : ℚ
  requests : ℤ → List ℚ

namespace RateLimiter

/-- The predicate kept by `_cleanup_old_requests`: `ts > now - window`. -/
def livePred (st : RateLimiter) (now : ℚ) (ts : ℚ) : Bool :=
  decide (now - st.window_seconds < ts)

/-- `_cleanup_old_requests`: drop expired timestamps of one user. -/
def cleanup_old_requests (st : RateLimiter) (now : ℚ) (u : ℤ) : RateLimiter :=
  { st with
    requests := fun v =>
      if v = u then (st.requests u).filter (st.livePred now) else st.requests v }

/-- The user's live (unexpired) timestamps, as pruning would leave them. -/
def liveList (st : RateLimiter) (now : ℚ) (u : ℤ) : List ℚ :=
  (st.requests u).filter (st.livePred now)

def is_allowed (st : RateLimiter) (now : ℚ) (u : ℤ) : Bool × RateLimiter :=
  let st1 := st.cleanup_old_requests now u
  (decide ((st1.requests u).length < st1.max_requests), st1)

def record_request (st : RateLimiter) (now : ℚ) (u : ℤ) : RateLimiter :=
  let st1 := st.cleanup_old_requests now u
  { st1 with
    requests := fun v =>
      if v = u then st1.requests u ++ [now] else st1.requests v }

def get_remaining (st : RateLimiter) (now : ℚ) (u : ℤ) : ℕ × RateLimiter :=
  let st1 := st.cleanup_old_requests now u
  (st1.max_requests - (st1.requests u).length, st1)

def get_reset_time (st : RateLimiter) (now : ℚ) (u : ℤ) : ℤ × RateLimiter :=
  let st1 := st.cleanup_old_requests now u
  match listMin (st1.requests u) with
  | none => (0, st1)
  | some oldest => (max 0 (pyTrunc (oldest + st1.window_seconds - now)), st1)

theorem cleanup_requests_self (st : RateLimiter) (now : ℚ) (u : ℤ) :
    (st.cleanup_old_requests now u).requests u = st.liveList now u := by
  simp [cleanup_old_requests, liveList]

end RateLimiter

/-- C2: `is_allowed(user)` is true iff the number of the user's recorded
timestamps newer than `now - window_seconds` is strictly less than
`max_requests`; with exactly `max_requests` live requests the next call
returns false; recording a request adds exactly one live entry; and once
`window_seconds` has elapsed past the oldest live request, a slot frees
and the user is allowed again. -/
theorem C2_is_allowed_sliding_window (st : RateLimiter) (now now' : ℚ) (u : ℤ) :
    ((st.is_allowed now u).1 = true ↔
      (st.liveList now u).length < st.max_requests)
    ∧ ((st.liveList now u).length = st.max_requests →
      (st.is_allowed now u).1 = false)
    ∧ (0 < st.window_seconds →
      ((st.record_request now u).liveList now u).length
        = (st.liveList now u).length + 1)
    ∧ (∀ m, (st.liveList now u).length = st.max_requests →
      listMin (st.liveList now u) = some m → now ≤ now' →
      m + st.window_seconds ≤ now' → (st.is_allowed now' u).1 = true) := by
  have hallow : ∀ t : ℚ, (st.is_allowed t u).1 = true ↔
      (st.liveList t u).length < st.max_requests := by
    intro t
    simp [RateLimiter.is_allowed, RateLimiter.cleanup_old_requests,
      RateLimiter.liveList]
  refine ⟨hallow now, ?_, ?_, ?_⟩
  · intro hlen
    rw [← Bool.not_eq_true]
    intro hctr
    have := (hallow now).mp hctr
    omega
  · intro hw
    have h1 : (st.record_request now u).requests u
        = st.liveList now u ++ [now] := by
      simp [RateLimiter.record_request, RateLimiter.cleanup_old_requests,
        RateLimiter.liveList]
    have h2 : (st.record_request now u).livePred = st.livePred := rfl
    have hidem : (st.liveList now u).filter (st.livePred now)
        = st.liveList now u := by
      rw [RateLimiter.liveList, List.filter_filter]
      simp
    have hsing : [now].filter (st.livePred now) = [now] := by
      have hl : st.livePred now now = true := by
        simp [RateLimiter.livePred]
        linarith
      simp [List.filter, hl]
    rw [RateLimiter.liveList, h1, h2, List.filter_append, hidem, hsing,
      List.length_append, List.length_singleton]
  · intro m hlen hmin hnn hexp
    rw [hallow now']
    rw [← hlen]
    have hmem : m ∈ st.liveList now u := listMin_mem hmin
    have hmem' : m ∈ st.requests u := List.mem_of_mem_filter hmem
    have hpm : st.livePred now m = true := List.of_mem_filter hmem
    have hqm : st.livePred now' m = false := by
      simp [RateLimiter.livePred]
      linarith
    exact length_filter_lt_of_strict
      (fun x hx hq => by
        simp [RateLimiter.livePred] at hq ⊢
        linarith)
      hmem' hpm hqm

/-- Witness for C2 at a concrete limiter: two requests at times 0 and 10
with a 60-second window and quota 2; recording at time 20 adds one live
entry, and by time 70 the user is admitted again. -/
theorem C2_witness :
    ((((RateLimiter.mk 2 60 (fun _ => [0, 10])).record_request 20 5).liveList
        20 5).length
      = (((RateLimiter.mk 2 60 (fun _ => [0, 10]))).liveList 20 5).length + 1)
    ∧ (((RateLimiter.mk 2 60 (fun _ => [0, 10])).is_allowed 70 5).1 = true) :=
  ⟨(C2_is_allowed_sliding_window (RateLimiter.mk 2 60 (fun _ => [0, 10]))
      20 70 5).2.2.1 (by norm_num),
   (C2_is_allowed_sliding_window (RateLimiter.mk 2 60 (fun _ => [0, 10]))
      20 70 5).2.2.2 0
    (by norm_num [RateLimiter.liveList, RateLimiter.livePred, List.filter])
    (by norm_num [RateLimiter.liveList, RateLimiter.livePred, List.filter,
      listMin, min_def])
    (by norm_num) (by norm_num)⟩

/-- C7 counterexample: with a single recorded timestamp `0`, window
`3600` and `now = 7199/2` (half a second before expiry), the timestamp
is still live — it is still counted against the quota and has not left
the window — yet `get_reset_time` already returns `0`, because the
Python code truncates `reset_at - time.time()` with `int()`.  This
refutes "reaches 0 exactly when the oldest timestamp expires" and
"otherwise the number of seconds until the oldest live timestamp leaves
the window". -/
theorem C7_counterexample :
    (((RateLimiter.mk 20 3600 (fun _ => [0])).get_reset_time (7199/2) 1).1 = 0)
    ∧ ((RateLimiter.mk 20 3600 (fun _ => [0])).liveList (7199/2) 1 = [0])
    ∧ ((7199 : ℚ)/2 < 0 + 3600) := by
  have hfil : ((RateLimiter.mk 20 3600 (fun _ => [0])).cleanup_old_requests
      (7199/2) 1).requests 1 = [0] := by
    simp [RateLimiter.cleanup_old_requests, RateLimiter.livePred, List.filter]
    norm_num
  refine ⟨?_, ?_, by norm_num⟩
  · simp [RateLimiter.get_reset_time, hfil, listMin, pyTrunc]
    norm_num [RateLimiter.cleanup_old_requests]
  · simp [RateLimiter.liveList, RateLimiter.livePred, List.filter]
    norm_num

/-- C7 as amended: `get_reset_time` returns 0 when the user has no live
timestamps; otherwise it returns `max 0 ⌊oldest + window - now⌋`, the
floor of the seconds until the oldest live timestamp leaves the window;
with no new requests recorded its value is monotonically non-increasing
as wall-clock time advances while the oldest timestamp remains live; and
it is 0 exactly when less than one full second remains until the oldest
timestamp expires. -/
theorem C7_get_reset_time_amended (st : RateLimiter) (now now' : ℚ) (u : ℤ) :
    ((st.liveList now u) = [] → (st.get_reset_time now u).1 = 0)
    ∧ (∀ m, listMin (st.liveList now u) = some m →
      (st.get_reset_time now u).1 = max 0 ⌊m + st.window_seconds - now⌋)
    ∧ (∀ m, listMin (st.liveList now u) = some m → now ≤ now' →
      now' - st.window_seconds < m →
      (st.get_reset_time now' u).1 ≤ (st.get_reset_time now u).1)
    ∧ (∀ m, listMin (st.liveList now u) = some m →
      ((st.get_reset_time now u).1 = 0 ↔ m + st.window_seconds - now < 1)) := by
  have hval : ∀ (t : ℚ) m, listMin (st.liveList t u) = some m →
      (st.get_reset_time t u).1 = max 0 ⌊m + st.window_seconds - t⌋ := by
    intro t m hmin
    have hmem : m ∈ st.liveList t u := listMin_mem hmin
    have hlive : st.livePred t m = true := List.of_mem_filter hmem
    have hpos : (0 : ℚ) ≤ m + st.window_seconds - t := by
      simp [RateLimiter.livePred] at hlive
      linarith
    simp [RateLimiter.get_reset_time, RateLimiter.cleanup_old_requests]
    rw [show ((st.requests u).filter (st.livePred t)) = st.liveList t u from rfl,
      hmin]
    simp [pyTrunc, hpos]
  refine ⟨?_, hval now, ?_, ?_⟩
  · intro hemp
    simp [RateLimiter.get_reset_time, RateLimiter.cleanup_old_requests]
    rw [show ((st.requests u).filter (st.livePred now)) = st.liveList now u
      from rfl, hemp]
    simp [listMin]
  · intro m hmin hle hliv
    have hmem : m ∈ st.liveList now u := listMin_mem hmin
    have hmem0 : m ∈ st.requests u := List.mem_of_mem_filter hmem
    have hq : st.livePred now' m = true := by
      simp [RateLimiter.livePred]
      linarith
    have hmem' : m ∈ st.liveList now' u :=
      List.mem_filter.mpr ⟨hmem0, hq⟩
    have hmin' : listMin (st.liveList now' u) = some m := by
      apply listMin_eq_some hmem'
      intro x hx
      have hx0 : x ∈ st.requests u := List.mem_of_mem_filter hx
      have hxq : st.livePred now' x = true := List.of_mem_filter hx
      have hxp : st.livePred now x = true := by
        simp [RateLimiter.livePred] at hxq ⊢
        linarith
      exact listMin_le hmin x (List.mem_filter.mpr ⟨hx0, hxp⟩)
    rw [hval now m hmin, hval now' m hmin']
    have : (⌊m + st.window_seconds - now'⌋ : ℤ) ≤ ⌊m + st.window_seconds - now⌋ :=
      Int.floor_le_floor (by linarith)
    omega
  · intro m hmin
    rw [hval now m hmin]
    have hmem : m ∈ st.liveList now u := listMin_mem hmin
    have hlive : st.livePred now m = true := List.of_mem_filter hmem
    have hpos : (0 : ℚ) < m + st.window_seconds - now := by
      simp [RateLimiter.livePred] at hlive
      linarith
    constructor
    · intro h0
      have hfl : (⌊m + st.window_seconds - now⌋ : ℤ) ≤ 0 := by omega
      calc m + st.window_seconds - now
          < (⌊m + st.window_seconds - now⌋ : ℚ) + 1 := Int.lt_floor_add_one _
        _ ≤ 0 + 1 := by
            have : ((⌊m + st.window_seconds - now⌋ : ℤ) : ℚ) ≤ 0 := by
              exact_mod_cast hfl
            linarith
        _ = 1 := by norm_num
    · intro hlt1
      have : (⌊m + st.window_seconds - now⌋ : ℤ) < 1 := by
        rw [Int.floor_lt]
        push_cast
        linarith
      omega

/-- Witness for C7's amended theorem: limiter with one timestamp 100 and
window 3600; at times 200 and 300 the formula holds, the value does not
increase, and it is nonzero since more than a second remains. -/
theorem C7_witness :
    (((RateLimiter.mk 20 3600 (fun _ => [100])).get_reset_time 200 1).1
      = max 0 ⌊(100 : ℚ) + 3600 - 200⌋)
    ∧ (((RateLimiter.mk 20 3600 (fun _ => [100])).get_reset_time 300 1).1
      ≤ ((RateLimiter.mk 20 3600 (fun _ => [100])).get_reset_time 200 1).1)
    ∧ ((((RateLimiter.mk 20 3600 (fun _ => [100])).get_reset_time 200 1).1 = 0)
      ↔ ((100 : ℚ) + 3600 - 200 < 1)) :=
  ⟨(C7_get_reset_time_amended (RateLimiter.mk 20 3600 (fun _ => [100]))
      200 300 1).2.1 100
    (by norm_num [RateLimiter.liveList, RateLimiter.livePred, List.filter,
      listMin]),
   (C7_get_reset_time_amended (RateLimiter.mk 20 3600 (fun _ => [100]))
      200 300 1).2.2.1 100
    (by norm_num [RateLimiter.liveList, RateLimiter.livePred, List.filter,
      listMin])
    (by norm_num) (by norm_num),
   (C7_get_reset_time_amended (RateLimiter.mk 20 3600 (fun _ => [100]))
      200 300 1).2.2.2 100
    (by norm_num [RateLimiter.liveList, RateLimiter.livePred, List.filter,
      listMin])⟩

/-! ## URL validators (src/utils/validators.py)

`extract_video_id` embeds the Python `YOUTUBE_REGEX.search`: the regex
is an optional scheme, an alternation of literal host/path prefixes and
an 11-character id class, matched case-insensitively at the leftmost
possible position.  Backtracking order of the alternation is modelled by
trying the alternatives in the regex's order at each position. -/

/-- First `some` produced by `f` over a list, in order (re backtracking). -/
def firstSome {α β : Type} (f : α → Option β) : List α → Option β
  | [] => none
  | a :: l =>
    match f a with
    | some b => some b
    | none => firstSome f l

theorem firstSome_eq_some {α β : Type} {f : α → Option β} :
    ∀ {l : List α} {b : β}, firstSome f l = some b → ∃ a ∈ l, f a = some b := by
  intro l
  induction l with
  | nil => intro b h; simp [firstSome] at h
  | cons a l ih =>
    intro b h
    simp only [firstSome] at h
    cases hfa : f a with
    | some c => rw [hfa] at h; exact ⟨a, List.mem_cons_self a l, hfa.trans h⟩
    | none =>
      rw [hfa] at h
      obtain ⟨a', ha', hfa'⟩ := ih h
      exact ⟨a', List.mem_cons_of_mem _ ha', hfa'⟩

theorem firstSome_cons_of_some {α β : Type} {f : α → Option β} {a : α}
    {l : List α} {b : β} (h : f a = some b) :
    firstSome f (a :: l) = some b := by
  simp [firstSome, h]

/-- The character class `[a-zA-Z0-9_-]` of a video id. -/
def ytIdChar (c : Char) : Bool :=
  c.isLower || c.isUpper || c.isDigit || c = '_' || c = '-'

/-- Case-insensitive literal prefix strip (re.IGNORECASE literal match):
returns the remainder after the literal, or `none`. -/
def stripCI : List Char → List Char → Option (List Char)
  | [], cs => some cs
  | _ :: _, [] => none
  | p :: ps, c :: cs => if c.toLower = p.toLower then stripCI ps cs else none

theorem stripCI_append_self : ∀ (p rest : List Char),
    stripCI p (p ++ rest) = some rest := by
  intro p
  induction p with
  | nil => intro rest; rfl
  | cons c cs ih => intro rest; simp [stripCI, ih]

/-- The capture group `([a-zA-Z0-9_-]{11})`: exactly 11 id characters
starting here (the rest of the input is unconstrained). -/
def grabId (cs : List Char) : Option (List Char) :=
  let pre := cs.take 11
  if pre.length = 11 && pre.all ytIdChar then some pre else none

/-- The host/path alternatives of `YOUTUBE_REGEX`, in backtracking
order: optional `www.`/`m.` on `youtube.com` with four path forms, then
`youtu.be/`. -/
def hostVariants : List (List Char) :=
  [ "www.youtube.com/watch?v=", "www.youtube.com/v/",
    "www.youtube.com/embed/", "www.youtube.com/shorts/",
    "m.youtube.com/watch?v=", "m.youtube.com/v/",
    "m.youtube.com/embed/", "m.youtube.com/shorts/",
    "youtube.com/watch?v=", "youtube.com/v/",
    "youtube.com/embed/", "youtube.com/shorts/",
    "youtu.be/" ].map String.toList

/-- The optional scheme `(?:https?://)?` in backtracking order. -/
def schemeVariants : List (List Char) :=
  ["https://", "http://", ""].map String.toList

def tryHost (cs : List Char) : Option (List Char) :=
  firstSome (fun h => (stripCI h cs).bind grabId) hostVariants

/-- One attempt of the whole regex anchored at the head of `cs`. -/
def matchIdAt (cs : List Char) : Option (List Char) :=
  firstSome (fun s => (stripCI s cs).bind tryHost) schemeVariants

/-- `re.search` semantics: try every start position left to right. -/
def searchId : List Char → Option (List Char)
  | [] => none
  | c :: cs =>
    match matchIdAt (c :: cs) with
    | some r => some r
    | none => searchId cs

def extract_video_id (url : String) : Option String :=
  (searchId url.toList).map (fun l => String.mk l)

def is_valid_youtube_url (url : String) : Bool :=
  (extract_video_id url).isSome

def normalize_youtube_url (url : String) : Option String :=
  (extract_video_id url).map
    (fun vid => "https://www.youtube.com/watch?v=" ++ vid)

theorem grabId_props {cs l : List Char} (h : grabId cs = some l) :
    l.length = 11 ∧ l.all ytIdChar = true := by
  simp only [grabId] at h
  split at h
  · rename_i hcond
    simp only [Bool.and_eq_true, decide_eq_true_eq] at hcond
    cases h
    exact hcond
  · exact absurd h (by simp)

theorem grabId_append {v : List Char} (rest : List Char)
    (h11 : v.length = 11) (hall : v.all ytIdChar = true) :
    grabId (v ++ rest) = some v := by
  have ht : (v ++ rest).take 11 = v := by
    rw [← h11]
    exact List.take_left v rest
  simp [grabId, ht, h11, hall]

theorem grabId_self {v : List Char} (h11 : v.length = 11)
    (hall : v.all ytIdChar = true) : grabId v = some v := by
  have := grabId_append (v := v) [] h11 hall
  simpa using this

theorem matchIdAt_props {cs l : List Char} (h : matchIdAt cs = some l) :
    l.length = 11 ∧ l.all ytIdChar = true := by
  obtain ⟨s, _, hs⟩ := firstSome_eq_some h
  cases hst : stripCI s cs with
  | none => rw [hst] at hs; simp at hs
  | some cs1 =>
    rw [hst] at hs
    simp at hs
    obtain ⟨hv, _, hh⟩ := firstSome_eq_some hs
    cases hsh : stripCI hv cs1 with
    | none => rw [hsh] at hh; simp at hh
    | some cs2 =>
      rw [hsh] at hh
      simp at hh
      exact grabId_props hh

theorem searchId_props : ∀ {cs l : List Char}, searchId cs = some l →
    l.length = 11 ∧ l.all ytIdChar = true := by
  intro cs
  induction cs with
  | nil => intro l h; simp [searchId] at h
  | cons c cs ih =>
    intro l h
    simp only [searchId] at h
    cases hm : matchIdAt (c :: cs) with
    | some r =>
      rw [hm] at h
      simp at h
      exact h ▸ matchIdAt_props hm
    | none =>
      rw [hm] at h
      exact ih h

/-- The full regex matches the canonical URL at its head, capturing the
11-character id. -/
theorem matchIdAt_canon (v : List Char) (h11 : v.length = 11)
    (hall : v.all ytIdChar = true) :
    matchIdAt ("https://www.youtube.com/watch?v=".toList ++ v) = some v := by
  have hs : "https://www.youtube.com/watch?v=".toList
      = "https://".toList ++ "www.youtube.com/watch?v=".toList := by decide
  unfold matchIdAt schemeVariants
  simp only [List.map]
  apply firstSome_cons_of_some
  rw [hs, List.append_assoc, stripCI_append_self, Option.some_bind]
  unfold tryHost hostVariants
  simp only [List.map]
  apply firstSome_cons_of_some
  rw [stripCI_append_self, Option.some_bind]
  exact grabId_self h11 hall

theorem searchId_canon (v : List Char) (h11 : v.length = 11)
    (hall : v.all ytIdChar = true) :
    searchId ("https://www.youtube.com/watch?v=".toList ++ v) = some v := by
  have hsplit : "https://www.youtube.com/watch?v=".toList
      = 'h' :: "ttps://www.youtube.com/watch?v=".toList := by decide
  have hm : matchIdAt ('h' ::
      ("ttps://www.youtube.com/watch?v=".toList ++ v)) = some v := by
    rw [← List.cons_append, ← hsplit]
    exact matchIdAt_canon v h11 hall
  rw [hsplit, List.cons_append]
  simp only [searchId]
  rw [hm]

theorem extract_video_id_canon {vid : String}
    (h11 : vid.toList.length = 11) (hall : vid.toList.all ytIdChar = true) :
    extract_video_id ("https://www.youtube.com/watch?v=" ++ vid) = some vid := by
  have htl : ("https://www.youtube.com/watch?v=" ++ vid).toList
      = "https://www.youtube.com/watch?v=".toList ++ vid.toList := by
    simp [String.toList]
  rw [extract_video_id, htl, searchId_canon vid.toList h11 hall]
  cases vid
  rfl

theorem extract_video_id_props {u vid : String}
    (h : extract_video_id u = some vid) :
    vid.toList.length = 11 ∧ vid.toList.all ytIdChar = true := by
  simp only [extract_video_id] at h
  cases hs : searchId u.toList with
  | none => rw [hs] at h; simp at h
  | some l =>
    rw [hs] at h
    simp at h
    have := searchId_props hs
    rw [← h]
    exact this

/-- C8: `normalize_youtube_url` is idempotent on every URL on which it
succeeds, and any two URLs from which the same 11-character video id is
extracted normalize to the identical canonical URL
`https://www.youtube.com/watch?v=<id>`. -/
theorem C8_normalize_idempotent_canonical :
    (∀ u cu, normalize_youtube_url u = some cu →
      normalize_youtube_url cu = some cu)
    ∧ (∀ u₁ u₂ vid, extract_video_id u₁ = some vid →
      extract_video_id u₂ = some vid →
      normalize_youtube_url u₁ = normalize_youtube_url u₂
      ∧ normalize_youtube_url u₁
        = some ("https://www.youtube.com/watch?v=" ++ vid)) := by
  constructor
  · intro u cu h
    simp only [normalize_youtube_url] at h ⊢
    cases he : extract_video_id u with
    | none => rw [he] at h; simp at h
    | some vid =>
      rw [he] at h
      simp at h
      obtain ⟨h11, hall⟩ := extract_video_id_props he
      rw [← h, extract_video_id_canon h11 hall]
      simp
  · intro u₁ u₂ vid h1 h2
    simp [normalize_youtube_url, h1, h2]

/-- Witness for C8 at concrete URLs: a short-form and a long-form URL
with the same id normalize identically, and normalization of the result
is a fixed point. -/
theorem C8_witness :
    (normalize_youtube_url "https://www.youtube.com/watch?v=dQw4w9WgXcQ"
      = some "https://www.youtube.com/watch?v=dQw4w9WgXcQ")
    ∧ (normalize_youtube_url "https://youtu.be/dQw4w9WgXcQ"
      = normalize_youtube_url "https://m.youtube.com/watch?v=dQw4w9WgXcQ")
    ∧ (normalize_youtube_url "https://youtu.be/dQw4w9WgXcQ"
      = some ("https://www.youtube.com/watch?v=" ++ "dQw4w9WgXcQ")) :=
  ⟨C8_normalize_idempotent_canonical.1 "https://youtu.be/dQw4w9WgXcQ"
      "https://www.youtube.com/watch?v=dQw4w9WgXcQ" (by decide),
   (C8_normalize_idempotent_canonical.2 "https://youtu.be/dQw4w9WgXcQ"
      "https://m.youtube.com/watch?v=dQw4w9WgXcQ" "dQw4w9WgXcQ"
      (by decide) (by decide)).1,
   (C8_normalize_idempotent_canonical.2 "https://youtu.be/dQw4w9WgXcQ"
      "https://m.youtube.com/watch?v=dQw4w9WgXcQ" "dQw4w9WgXcQ"
      (by decide) (by decide)).2⟩

/-! ## URL extraction from message text (src/utils/validators.py)

`extract_urls_from_text` embeds the Python `url_pattern.findall` (three
case-sensitive alternatives, each a literal prefix followed by a
nonempty greedy run of characters outside the excluded class) followed
by the prepend-scheme-and-validate filter. -/

/-- Characters excluded from a URL run by the pattern's character class
(whitespace plus the punctuation set in the regex). -/
def urlStopChar (c : Char) : Bool :=
  c = ' ' || c = '\t' || c = '\n' || c = '\r' || c = '\x0b' || c = '\x0c' ||
  c = '<' || c = '>' || c = '"' || c = '\x7b' || c = '\x7d' || c = '|' ||
  c = '\\' || c = '^' || c = '\x60' || c = '[' || c = ']'

def urlChar (c : Char) : Bool := !(urlStopChar c)

/-- Case-sensitive literal prefix strip. -/
def stripExact : List Char → List Char → Option (List Char)
  | [], cs => some cs
  | _ :: _, [] => none
  | p :: ps, c :: cs => if c = p then stripExact ps cs else none

/-- One alternative of `url_pattern` at the head of `cs`: the literal
`p`, then a nonempty maximal run of `urlChar`s.  Returns the matched
text and the remaining input. -/
def tryUrlAlt (p : List Char) (cs : List Char) :
    Option (List Char × List Char) :=
  match stripExact p cs with
  | none => none
  | some cs1 =>
    let run := cs1.takeWhile urlChar
    if run = [] then none else some (p ++ run, cs1.dropWhile urlChar)

/-- The literal prefixes of the three alternatives, in backtracking
order (`https?://`, optional `www.`/`m.` on `youtube.com/`,
`youtu.be/`). -/
def urlAltLiterals : List (List Char) :=
  [ "https://", "http://", "www.youtube.com/", "m.youtube.com/",
    "youtube.com/", "youtu.be/" ].map String.toList

def matchUrlAt (cs : List Char) : Option (List Char × List Char) :=
  firstSome (fun p => tryUrlAlt p cs) urlAltLiterals

/-- `findall`: non-overlapping leftmost matches.  `fuel` bounds the scan
(each step consumes at least one character, so `cs.length` suffices). -/
def findUrlsAux : ℕ → List Char → List (List Char)
  | 0, _ => []
  | _ + 1, [] => []
  | fuel + 1, c :: cs =>
    match matchUrlAt (c :: cs) with
    | some mr => mr.1 :: findUrlsAux fuel mr.2
    | none => findUrlsAux fuel cs

/-- Python `str.startswith`. -/
def pyStartsWith (s : String) (p : String) : Bool :=
  p.toList.isPrefixOf s.toList

def extract_urls_from_text (text : String) : List String :=
  let potential := (findUrlsAux text.toList.length text.toList).map
    (fun l => String.mk l)
  potential.filterMap (fun u =>
    let u1 := if pyStartsWith u "http" then u else "https://" ++ u
    if is_valid_youtube_url u1 then some u1 else none)

/-- Every URL returned by `extract_urls_from_text` passes
`is_valid_youtube_url`. -/
theorem extract_urls_valid {text : String} {u : String}
    (h : u ∈ extract_urls_from_text text) : is_valid_youtube_url u = true := by
  simp only [extract_urls_from_text, List.mem_filterMap] at h
  obtain ⟨a, _, ha⟩ := h
  by_cases hs : pyStartsWith a "http" = true
  · rw [if_pos hs] at ha
    by_cases hv : is_valid_youtube_url a = true
    · rw [if_pos hv] at ha
      cases ha
      exact hv
    · rw [if_neg hv] at ha
      cases ha
  · rw [if_neg hs] at ha
    by_cases hv : is_valid_youtube_url ("https://" ++ a) = true
    · rw [if_pos hv] at ha
      cases ha
      exact hv
    · rw [if_neg hv] at ha
      cases ha

/-! ## Queue, job and worker (src/core/queue_manager.py) -/

structure DownloadJob where
  user_id : ℤ
  chat_id : ℤ
  message_id : ℤ
  url : String
deriving DecidableEq

/-- Outcome of one `self._processor(job)` call as observed by the
worker: either it returns, or it raises an exception (carried as a
message). -/
inductive JobOutcome where
  | ok
  | raises (e : String)
deriving DecidableEq

structure WorkerState where
  processed : ℕ
  logged : List String
deriving DecidableEq

/-- The body of `_worker`'s inner loop for one job: the processor call
is wrapped in `try/except Exception`, so a raising job is logged and the
worker continues; `Except.error` (the worker itself crashing on a job
error) is never produced. -/
def workerStep (st : WorkerState) (j : JobOutcome) : Except String WorkerState :=
  match j with
  | .ok => .ok { st with processed := st.processed + 1 }
  | .raises e =>
      .ok { processed := st.processed + 1, logged := st.logged ++ [e] }

/-- The worker loop over a finite stream of jobs. -/
def workerRun : WorkerState → List JobOutcome → Except String WorkerState
  | st, [] => .ok st
  | st, j :: js =>
    match workerStep st j with
    | .ok st' => workerRun st' js
    | .error e => .error e

/-- C9: an unhandled exception raised while processing one job is caught
at the worker boundary: for every stream of job outcomes the worker
terminates normally (never with a propagated error), has processed every
job, and has logged exactly the raising jobs' errors. -/
theorem C9_worker_survives_job_errors (jobs : List JobOutcome) :
    ∃ st : WorkerState, workerRun ⟨0, []⟩ jobs = .ok st
    ∧ st.processed = jobs.length
    ∧ st.logged = jobs.filterMap (fun j =>
        match j with
        | .ok => none
        | .raises e => some e) := by
  suffices h : ∀ (jobs : List JobOutcome) (st0 : WorkerState),
      ∃ st : WorkerState, workerRun st0 jobs = .ok st
      ∧ st.processed = st0.processed + jobs.length
      ∧ st.logged = st0.logged ++ jobs.filterMap (fun j =>
          match j with
          | .ok => none
          | .raises e => some e) by
    obtain ⟨st, h1, h2, h3⟩ := h jobs ⟨0, []⟩
    exact ⟨st, h1, by simpa using h2, by simpa using h3⟩
  intro jobs
  induction jobs with
  | nil => intro st0; exact ⟨st0, rfl, by simp, by simp⟩
  | cons j js ih =>
    intro st0
    cases j with
    | ok =>
      obtain ⟨st, h1, h2, h3⟩ := ih { st0 with processed := st0.processed + 1 }
      refine ⟨st, ?_, by simpa [Nat.add_comm, Nat.add_assoc, Nat.add_left_comm] using h2, by simpa using h3⟩
      simpa [workerRun, workerStep] using h1
    | raises e =>
      obtain ⟨st, h1, h2, h3⟩ := ih
        { processed := st0.processed + 1, logged := st0.logged ++ [e] }
      refine ⟨st, ?_, by simpa [Nat.add_comm, Nat.add_assoc, Nat.add_left_comm] using h2, by simpa using h3⟩
      simpa [workerRun, workerStep] using h1

/-! ## Downloader (src/core/downloader.py) and processor
(src/core/processor.py)

The yt-dlp and Telegram collaborators are oracles.  A `FetchOutcome`
describes what the blocking download call would do (raise a timeout,
raise a tool error, produce no output, or write a file of some size);
`YouTubeDownloader.download`'s control flow around it — including the
post-download Telegram size gate that unlinks an oversized file — is
embedded faithfully.  Delivery attempts of `_send_video` are an oracle
`ℕ → Option PExc` giving, per attempt index, the exception raised by
`app.send_video` (or `none` for success). -/

structure VideoInfo where
  id : String
  title : String
  duration : ℤ
  uploader : String
  is_available : Bool
  error_message : Option String
deriving DecidableEq

inductive FetchOutcome where
  | noOutput
  | timeout
  | dlError (msg : String)
  | fileMissing
  | file (name : String) (size : ℤ) (title : String) (duration : ℤ)
deriving DecidableEq

structure DownloadResult where
  success : Bool
  file_path : Option String := none
  file_size : ℤ := 0
  title : String := ""
  duration : ℤ := 0
  error_message : Option String := none
deriving DecidableEq

def TELEGRAM_FILE_SIZE_LIMIT : ℤ := 2 * 1024 * 1024 * 1024

/-- `YouTubeDownloader.download`: reacts to the fetch outcome, writing
the file to the working directory and unlinking it again when its size
exceeds `TELEGRAM_FILE_SIZE_LIMIT`.  Returns the result and the new
directory contents. -/
def download (fetch : FetchOutcome) (disk : List String) :
    DownloadResult × List String :=
  match fetch with
  | .noOutput =>
      ({ success := false, error_message := some "Download failed - no output" },
        disk)
  | .timeout =>
      ({ success := false,
         error_message := some "Download timed out. Try a shorter video." },
        disk)
  | .dlError msg =>
      ({ success := false, error_message := some msg }, disk)
  | .fileMissing =>
      ({ success := false, error_message := some "Downloaded file not found" },
        disk)
  | .file name size title dur =>
      let disk1 := name :: disk
      if TELEGRAM_FILE_SIZE_LIMIT < size then
        ({ success := false,
           error_message := some "Video too large. Telegram limit exceeded." },
          disk1.erase name)
      else
        ({ success := true, file_path := some name, file_size := size,
           title := title, duration := dur }, disk1)

/-- `utils.cleanup.delete_file`: unlink if present, report success. -/
def delete_file (name : String) (disk : List String) : Bool × List String :=
  if name ∈ disk then (true, disk.erase name) else (false, disk)

/-- Exceptions that can cross `_send_video` into `process`'s handlers. -/
inductive PExc where
  | floodWait (v : ℚ)
  | rpcError (msg : String)
  | other (msg : String)
deriving DecidableEq

/-- User-facing terminal error messages of `process`, distinguished by
which handler produced them. -/
inductive ErrMsg where
  | infoUnavailable (m : String)
  | tooLong
  | downloadFailed (m : String)
  | rateLimited
  | telegramError
  | genericError
deriving DecidableEq

/-- Observable events of one `process` run. -/
inductive Ev where
  | status (t : String)
  | statusDeleted
  | sendErr (e : ErrMsg)
  | downloadInvoked
  | attemptSend (i : ℕ)
  | slept (v : ℚ)
  | fileDeleted (n : String)
  | jobLogged
deriving DecidableEq

/-- The retry loop of `_send_video` (`for attempt in range(max_retries)`):
`n` attempts remain, the current loop index is `i`.  On success it
returns; on `FloodWait(v)` it sleeps `v` and continues the loop; on any
other exception it sleeps `2 ** attempt` and continues, unless this was
the final attempt, in which case the exception propagates.  Falling off
the end of the loop (only possible when every remaining attempt raised
`FloodWait`) returns normally.  Result: emitted events and the
exception that escaped, if any. -/
def sendLoop (f : ℕ → Option PExc) : ℕ → ℕ → List Ev × Option PExc
  | 0, _ => ([], none)
  | n + 1, i =>
    match f i with
    | none => ([Ev.attemptSend i], none)
    | some (PExc.floodWait v) =>
        let r := sendLoop f n (i + 1)
        (Ev.attemptSend i :: Ev.slept v :: r.1, r.2)
    | some e =>
        if n = 0 then ([Ev.attemptSend i], some e)
        else
          let r := sendLoop f n (i + 1)
          (Ev.attemptSend i :: Ev.slept ((2 : ℚ) ^ i) :: r.1, r.2)

def max_retries : ℕ := 3

/-- `_send_video`: early return when the result has no file path, else
run the retry loop. -/
def send_video (f : ℕ → Option PExc) (res : DownloadResult) :
    List Ev × Option PExc :=
  match res.file_path with
  | none => ([], none)
  | some _ => sendLoop f max_retries 0

/-- Oracle environment of one `process` call. -/
structure ProcEnv where
  info : VideoInfo
  fetch : FetchOutcome
  send : ℕ → Option PExc

structure ProcOut where
  events : List Ev
  disk : List String
  file_path : Option String
deriving DecidableEq

/-- The `try` body of `JobProcessor.process` plus its `except` handlers:
returns the events, the final value of the `file_path` local, and the
directory state.  (`_update_status`/`_send_error` swallow their own
exceptions in the source, so they are simple events here.) -/
def processBody (env : ProcEnv) (disk0 : List String) :
    List Ev × Option String × List String :=
  let evs0 := [Ev.status "Getting video info"]
  if env.info.is_available = false then
    (evs0 ++ [Ev.sendErr (ErrMsg.infoUnavailable
      (env.info.error_message.getD ""))], none, disk0)
  else if 7200 < env.info.duration then
    (evs0 ++ [Ev.sendErr ErrMsg.tooLong], none, disk0)
  else
    let evs1 := evs0 ++ [Ev.status "Downloading", Ev.downloadInvoked]
    let dres := download env.fetch disk0
    if dres.1.success = false then
      (evs1 ++ [Ev.sendErr (ErrMsg.downloadFailed
        (dres.1.error_message.getD ""))], none, dres.2)
    else
      let evs2 := evs1 ++ [Ev.status "Uploading"]
      let s := send_video env.send dres.1
      match s.2 with
      | none =>
          (evs2 ++ s.1 ++ [Ev.statusDeleted, Ev.jobLogged],
            dres.1.file_path, dres.2)
      | some (PExc.floodWait v) =>
          (evs2 ++ s.1 ++ [Ev.slept v, Ev.sendErr ErrMsg.rateLimited],
            dres.1.file_path, dres.2)
      | some (PExc.rpcError _) =>
          (evs2 ++ s.1 ++ [Ev.sendErr ErrMsg.telegramError],
            dres.1.file_path, dres.2)
      | some (PExc.other _) =>
          (evs2 ++ s.1 ++ [Ev.sendErr ErrMsg.genericError],
            dres.1.file_path, dres.2)

/-- `JobProcessor.process` including the `finally` block: if the
`file_path` local is set and the file exists, delete it. -/
def process (env : ProcEnv) (disk0 : List String) : ProcOut :=
  let b := processBody env disk0
  match b.2.1 with
  | none => { events := b.1, disk := b.2.2, file_path := none }
  | some name =>
      if name ∈ b.2.2 then
        { events := b.1 ++ [Ev.fileDeleted name],
          disk := (delete_file name b.2.2).2, file_path := some name }
      else
        { events := b.1, disk := b.2.2, file_path := some name }

/-- The retry loop never lets a `FloodWait` escape: each occurrence is
caught, slept on and the loop continues (or ends normally). -/
theorem sendLoop_ne_floodWait (f : ℕ → Option PExc) :
    ∀ (n i : ℕ) (v : ℚ), (sendLoop f n i).2 ≠ some (PExc.floodWait v) := by
  intro n
  induction n with
  | zero => intro i v; simp [sendLoop]
  | succ n ih =>
    intro i v
    cases hf : f i with
    | none => simp [sendLoop, hf]
    | some e =>
      cases e with
      | floodWait w =>
        simp only [sendLoop, hf]
        exact ih (i + 1) v
      | rpcError m =>
        by_cases hn : n = 0
        · simp [sendLoop, hf, hn]
        · simp only [sendLoop, hf, if_neg hn]
          exact ih (i + 1) v
      | other m =>
        by_cases hn : n = 0
        · simp [sendLoop, hf, hn]
        · simp only [sendLoop, hf, if_neg hn]
          exact ih (i + 1) v

/-- Number of delivery attempts recorded in an event list. -/
def attemptsOf (evs : List Ev) : ℕ :=
  evs.countP (fun e =>
    match e with
    | Ev.attemptSend _ => true
    | _ => false)

theorem attemptsOf_cons (e : Ev) (l : List Ev) :
    attemptsOf (e :: l) = attemptsOf l + (match e with
      | Ev.attemptSend _ => 1
      | _ => 0) := by
  cases e <;> simp [attemptsOf, List.countP_cons]

theorem attemptsOf_sendLoop_le (f : ℕ → Option PExc) :
    ∀ (n i : ℕ), attemptsOf (sendLoop f n i).1 ≤ n := by
  intro n
  induction n with
  | zero => intro i; simp [sendLoop, attemptsOf]
  | succ n ih =>
    intro i
    cases hf : f i with
    | none => simp [sendLoop, hf, attemptsOf, List.countP_cons]
    | some e =>
      cases e with
      | floodWait w =>
        simp only [sendLoop, hf]
        have := ih (i + 1)
        simp only [attemptsOf_cons]
        omega
      | rpcError m =>
        by_cases hn : n = 0
        · simp [sendLoop, hf, hn, attemptsOf, List.countP_cons]
        · simp only [sendLoop, hf, if_neg hn]
          have := ih (i + 1)
          simp only [attemptsOf_cons]
          omega
      | other m =>
        by_cases hn : n = 0
        · simp [sendLoop, hf, hn, attemptsOf, List.countP_cons]
        · simp only [sendLoop, hf, if_neg hn]
          have := ih (i + 1)
          simp only [attemptsOf_cons]
          omega

/-- A non-exhausted loop iteration always begins with its attempt. -/
theorem sendLoop_starts (f : ℕ → Option PExc) (n i : ℕ) :
    ∃ tl, (sendLoop f (n + 1) i).1 = Ev.attemptSend i :: tl := by
  cases hf : f i with
  | none => exact ⟨[], by simp [sendLoop, hf]⟩
  | some e =>
    cases e with
    | floodWait w =>
      exact ⟨Ev.slept w :: (sendLoop f n (i + 1)).1, by simp [sendLoop, hf]⟩
    | rpcError m =>
      by_cases hn : n = 0
      · exact ⟨[], by simp [sendLoop, hf, hn]⟩
      · exact ⟨Ev.slept ((2 : ℚ) ^ i) :: (sendLoop f n (i + 1)).1,
          by simp [sendLoop, hf, hn]⟩
    | other m =>
      by_cases hn : n = 0
      · exact ⟨[], by simp [sendLoop, hf, hn]⟩
      · exact ⟨Ev.slept ((2 : ℚ) ^ i) :: (sendLoop f n (i + 1)).1,
          by simp [sendLoop, hf, hn]⟩

/-- One-step unfolding: successful attempt. -/
theorem sendLoop_step_ok (f : ℕ → Option PExc) (n i : ℕ) (hf : f i = none) :
    sendLoop f (n + 1) i = ([Ev.attemptSend i], none) := by
  simp only [sendLoop, hf]

/-- One-step unfolding: `FloodWait` attempt. -/
theorem sendLoop_step_flood (f : ℕ → Option PExc) (n i : ℕ) (v : ℚ)
    (hf : f i = some (PExc.floodWait v)) :
    sendLoop f (n + 1) i
      = (Ev.attemptSend i :: Ev.slept v :: (sendLoop f n (i + 1)).1,
        (sendLoop f n (i + 1)).2) := by
  simp only [sendLoop, hf]

/-- One-step unfolding: non-FloodWait failure on a non-final attempt. -/
theorem sendLoop_step_err (f : ℕ → Option PExc) (n i : ℕ) (e : PExc)
    (hf : f i = some e) (hnf : ∀ v, e ≠ PExc.floodWait v) (hn : n ≠ 0) :
    sendLoop f (n + 1) i
      = (Ev.attemptSend i :: Ev.slept ((2 : ℚ) ^ i)
          :: (sendLoop f n (i + 1)).1,
        (sendLoop f n (i + 1)).2) := by
  cases e with
  | floodWait v => exact absurd rfl (hnf v)
  | rpcError m => simp only [sendLoop, hf, if_neg hn]
  | other m => simp only [sendLoop, hf, if_neg hn]

/-- One-step unfolding: non-FloodWait failure on the final attempt. -/
theorem sendLoop_step_err_final (f : ℕ → Option PExc) (i : ℕ) (e : PExc)
    (hf : f i = some e) (hnf : ∀ v, e ≠ PExc.floodWait v) :
    sendLoop f 1 i = ([Ev.attemptSend i], some e) := by
  cases e with
  | floodWait v => exact absurd rfl (hnf v)
  | rpcError m => simp [sendLoop, hf]
  | other m => simp [sendLoop, hf]

/-- After a transient (non-FloodWait) failure on a non-final attempt the
loop sleeps `2 ^ attempt` and then performs the next attempt. -/
theorem sendLoop_err_backoff (f : ℕ → Option PExc) (n i : ℕ) (e : PExc)
    (hf : f i = some e) (hnf : ∀ v, e ≠ PExc.floodWait v) (hn : n ≠ 0) :
    ∃ tl, (sendLoop f (n + 1) i).1
      = Ev.attemptSend i :: Ev.slept ((2 : ℚ) ^ i)
        :: Ev.attemptSend (i + 1) :: tl := by
  rw [sendLoop_step_err f n i e hf hnf hn]
  obtain ⟨m, rfl⟩ := Nat.exists_eq_succ_of_ne_zero hn
  obtain ⟨tl, htl⟩ := sendLoop_starts f m (i + 1)
  exact ⟨tl, by rw [htl]⟩

/-- A `FloodWait(v)` on a non-final attempt sleeps exactly `v` and then
performs the next attempt. -/
theorem sendLoop_flood_retries (f : ℕ → Option PExc) (n i : ℕ) (v : ℚ)
    (hf : f i = some (PExc.floodWait v)) (hn : n ≠ 0) :
    ∃ tl, (sendLoop f (n + 1) i).1
      = Ev.attemptSend i :: Ev.slept v :: Ev.attemptSend (i + 1) :: tl := by
  rw [sendLoop_step_flood f n i v hf]
  obtain ⟨m, rfl⟩ := Nat.exists_eq_succ_of_ne_zero hn
  obtain ⟨tl, htl⟩ := sendLoop_starts f m (i + 1)
  exact ⟨tl, by rw [htl]⟩

/-- A `FloodWait(v)` on the final attempt sleeps exactly `v` and the
loop then returns normally, reporting nothing. -/
theorem sendLoop_flood_final (f : ℕ → Option PExc) (i : ℕ) (v : ℚ)
    (hf : f i = some (PExc.floodWait v)) :
    sendLoop f 1 i = ([Ev.attemptSend i, Ev.slept v], none) := by
  simp [sendLoop, hf]

/-- Three consecutive non-FloodWait failures: the full run is attempt 0,
sleep `2^0`, attempt 1, sleep `2^1`, attempt 2, and the last exception
escapes the loop. -/
theorem sendLoop_three_errors (f : ℕ → Option PExc) (e0 e1 e2 : PExc)
    (h0 : f 0 = some e0) (h1 : f 1 = some e1) (h2 : f 2 = some e2)
    (hnf0 : ∀ v, e0 ≠ PExc.floodWait v) (hnf1 : ∀ v, e1 ≠ PExc.floodWait v)
    (hnf2 : ∀ v, e2 ≠ PExc.floodWait v) :
    sendLoop f 3 0 = ([Ev.attemptSend 0, Ev.slept 1, Ev.attemptSend 1,
      Ev.slept 2, Ev.attemptSend 2], some e2) := by
  cases e0 with
  | floodWait v => exact absurd rfl (hnf0 v)
  | rpcError m0 =>
    cases e1 with
    | floodWait v => exact absurd rfl (hnf1 v)
    | rpcError m1 =>
      cases e2 with
      | floodWait v => exact absurd rfl (hnf2 v)
      | rpcError m2 => simp [sendLoop, h0, h1, h2]
      | other m2 => simp [sendLoop, h0, h1, h2]
    | other m1 =>
      cases e2 with
      | floodWait v => exact absurd rfl (hnf2 v)
      | rpcError m2 => simp [sendLoop, h0, h1, h2]
      | other m2 => simp [sendLoop, h0, h1, h2]
  | other m0 =>
    cases e1 with
    | floodWait v => exact absurd rfl (hnf1 v)
    | rpcError m1 =>
      cases e2 with
      | floodWait v => exact absurd rfl (hnf2 v)
      | rpcError m2 => simp [sendLoop, h0, h1, h2]
      | other m2 => simp [sendLoop, h0, h1, h2]
    | other m1 =>
      cases e2 with
      | floodWait v => exact absurd rfl (hnf2 v)
      | rpcError m2 => simp [sendLoop, h0, h1, h2]
      | other m2 => simp [sendLoop, h0, h1, h2]

/-- On the success path of `processBody` the `file_path` local is the
downloaded file's name and the file is on disk, whatever the delivery
outcome. -/
theorem processBody_success_snd (env : ProcEnv) (disk0 : List String)
    (name : String) (size : ℤ) (t : String) (d : ℤ)
    (hA : env.info.is_available = true) (hD : ¬ 7200 < env.info.duration)
    (hf : env.fetch = FetchOutcome.file name size t d)
    (hS : ¬ TELEGRAM_FILE_SIZE_LIMIT < size) :
    (processBody env disk0).2 = (some name, name :: disk0) := by
  simp only [processBody, download, hf, hA, hD, if_neg hS]
  simp only [Bool.true_eq_false, if_false, if_neg hD]
  split <;> rfl

/-- C1: for every oracle environment, whatever the exit state of
`process` — unavailable metadata, over-long video, any download failure,
the oversized-file gate, successful delivery, or an exception raised
during delivery — a file written by the download stage does not exist on
disk when `process` returns. -/
theorem C1_cleanup_unconditional (env : ProcEnv) (disk0 : List String)
    (name : String) (size : ℤ) (t : String) (d : ℤ)
    (hf : env.fetch = FetchOutcome.file name size t d)
    (hfresh : name ∉ disk0) :
    name ∉ (process env disk0).disk := by
  by_cases hA : env.info.is_available = false
  · simpa [process, processBody, hA] using hfresh
  · rw [Bool.not_eq_false] at hA
    by_cases hD : 7200 < env.info.duration
    · simpa [process, processBody, hA, hD] using hfresh
    · by_cases hS : TELEGRAM_FILE_SIZE_LIMIT < size
      · simpa [process, processBody, download, hA, hD, hf, hS,
          List.erase_cons_head] using hfresh
      · have hsnd := processBody_success_snd env disk0 name size t d hA hD hf hS
        simp only [process, hsnd]
        simp [delete_file, List.erase_cons_head, hfresh]

/-- Witness for C1: a concrete job whose delivery raises a transient
error on every attempt; the downloaded file is gone afterwards. -/
theorem C1_witness :
    "42_video.mp4" ∉ (process
      { info := { id := "v", title := "t", duration := 90, uploader := "u",
                  is_available := true, error_message := none },
        fetch := FetchOutcome.file "42_video.mp4" 1000 "t" 90,
        send := fun _ => some (PExc.other "boom") }
      ["other.mp4"]).disk :=
  C1_cleanup_unconditional _ ["other.mp4"] "42_video.mp4" 1000 "t" 90 rfl
    (by decide)

/-- C4: when the metadata probe succeeds with duration strictly greater
than 7200 seconds, the job fails with the too-long reason, the download
is never invoked, and the disk is untouched. -/
theorem C4_too_long_skips_download (env : ProcEnv) (disk0 : List String)
    (hA : env.info.is_available = true) (hD : 7200 < env.info.duration) :
    (process env disk0).events
      = [Ev.status "Getting video info", Ev.sendErr ErrMsg.tooLong]
    ∧ Ev.downloadInvoked ∉ (process env disk0).events
    ∧ (process env disk0).disk = disk0 := by
  have hev : (process env disk0)
      = { events := [Ev.status "Getting video info", Ev.sendErr ErrMsg.tooLong],
          disk := disk0, file_path := none } := by
    simp [process, processBody, hA, hD]
  rw [hev]
  refine ⟨rfl, ?_, rfl⟩
  simp

/-- Witness for C4: a probe reporting 7500 seconds. -/
theorem C4_witness :
    (process
      { info := { id := "v", title := "t", duration := 7500, uploader := "u",
                  is_available := true, error_message := none },
        fetch := FetchOutcome.file "f.mp4" 1000 "t" 7500,
        send := fun _ => none } []).events
      = [Ev.status "Getting video info", Ev.sendErr ErrMsg.tooLong] :=
  (C4_too_long_skips_download _ [] rfl (by norm_num)).1

/-- C5: when the fetch completes but the file exceeds the configured
maximum payload size, the file is deleted inside `download` before it
returns, the job fails with the oversized-file reason, and no file for
the job remains in the working directory. -/
theorem C5_oversized_file_deleted (env : ProcEnv) (disk0 : List String)
    (name : String) (size : ℤ) (t : String) (d : ℤ)
    (hA : env.info.is_available = true) (hD : ¬ 7200 < env.info.duration)
    (hf : env.fetch = FetchOutcome.file name size t d)
    (hS : TELEGRAM_FILE_SIZE_LIMIT < size)
    (hfresh : name ∉ disk0) :
    (process env disk0).disk = disk0
    ∧ name ∉ (process env disk0).disk
    ∧ Ev.sendErr (ErrMsg.downloadFailed
        "Video too large. Telegram limit exceeded.")
      ∈ (process env disk0).events
    ∧ (process env disk0).file_path = none := by
  have hev : (process env disk0)
      = { events := [Ev.status "Getting video info", Ev.status "Downloading",
            Ev.downloadInvoked,
            Ev.sendErr (ErrMsg.downloadFailed
              "Video too large. Telegram limit exceeded.")],
          disk := disk0, file_path := none } := by
    simp [process, processBody, download, hA, hD, hf, hS,
      List.erase_cons_head]
  rw [hev]
  exact ⟨rfl, hfresh, by simp, rfl⟩

/-- Witness for C5: a 3 GB fetch result is deleted and reported. -/
theorem C5_witness :
    (process
      { info := { id := "v", title := "t", duration := 90, uploader := "u",
                  is_available := true, error_message := none },
        fetch := FetchOutcome.file "9_big.mp4" (3 * 1024 * 1024 * 1024) "t" 90,
        send := fun _ => none } []).disk = ([] : List String)
    ∧ "9_big.mp4" ∉ (process
      { info := { id := "v", title := "t", duration := 90, uploader := "u",
                  is_available := true, error_message := none },
        fetch := FetchOutcome.file "9_big.mp4" (3 * 1024 * 1024 * 1024) "t" 90,
        send := fun _ => none } []).disk :=
  ⟨(C5_oversized_file_deleted _ [] "9_big.mp4" (3 * 1024 * 1024 * 1024) "t" 90
      rfl (by norm_num) rfl (by norm_num [TELEGRAM_FILE_SIZE_LIMIT])
      (by decide)).1,
   (C5_oversized_file_deleted _ [] "9_big.mp4" (3 * 1024 * 1024 * 1024) "t" 90
      rfl (by norm_num) rfl (by norm_num [TELEGRAM_FILE_SIZE_LIMIT])
      (by decide)).2.1⟩

/-- The retry loop emits only attempt and sleep events. -/
theorem sendLoop_events_shape (f : ℕ → Option PExc) :
    ∀ (n i : ℕ) (e : Ev), e ∈ (sendLoop f n i).1 →
      (∃ j, e = Ev.attemptSend j) ∨ (∃ v, e = Ev.slept v) := by
  intro n
  induction n with
  | zero => intro i e he; simp [sendLoop] at he
  | succ n ih =>
    intro i e he
    cases hf : f i with
    | none =>
      rw [sendLoop_step_ok f n i hf] at he
      simp at he
      exact Or.inl ⟨i, he⟩
    | some exc =>
      cases exc with
      | floodWait v =>
        rw [sendLoop_step_flood f n i v hf] at he
        simp at he
        rcases he with rfl | rfl | hm
        · exact Or.inl ⟨i, rfl⟩
        · exact Or.inr ⟨v, rfl⟩
        · exact ih (i + 1) e hm
      | rpcError m =>
        by_cases hn : n = 0
        · subst hn
          rw [sendLoop_step_err_final f i _ hf (by intro v h; cases h)] at he
          simp at he
          exact Or.inl ⟨i, he⟩
        · rw [sendLoop_step_err f n i _ hf (by intro v h; cases h) hn] at he
          simp at he
          rcases he with rfl | rfl | hm
          · exact Or.inl ⟨i, rfl⟩
          · exact Or.inr ⟨(2 : ℚ) ^ i, rfl⟩
          · exact ih (i + 1) e hm
      | other m =>
        by_cases hn : n = 0
        · subst hn
          rw [sendLoop_step_err_final f i _ hf (by intro v h; cases h)] at he
          simp at he
          exact Or.inl ⟨i, he⟩
        · rw [sendLoop_step_err f n i _ hf (by intro v h; cases h) hn] at he
          simp at he
          rcases he with rfl | rfl | hm
          · exact Or.inl ⟨i, rfl⟩
          · exact Or.inr ⟨(2 : ℚ) ^ i, rfl⟩
          · exact ih (i + 1) e hm

theorem sendErr_not_mem_sendLoop (f : ℕ → Option PExc) (n i : ℕ) (m : ErrMsg) :
    Ev.sendErr m ∉ (sendLoop f n i).1 := by
  intro hmem
  rcases sendLoop_events_shape f n i _ hmem with ⟨j, h⟩ | ⟨v, h⟩ <;> cases h

theorem jobLogged_not_mem_sendLoop (f : ℕ → Option PExc) (n i : ℕ) :
    Ev.jobLogged ∉ (sendLoop f n i).1 := by
  intro hmem
  rcases sendLoop_events_shape f n i _ hmem with ⟨j, h⟩ | ⟨v, h⟩ <;> cases h

theorem sendErr_not_mem_send_video (f : ℕ → Option PExc)
    (res : DownloadResult) (m : ErrMsg) :
    Ev.sendErr m ∉ (send_video f res).1 := by
  cases hres : res.file_path with
  | none => simp [send_video, hres]
  | some p =>
    simp only [send_video, hres]
    exact sendErr_not_mem_sendLoop f max_retries 0 m

/-- `_send_video` never lets a `FloodWait` escape to `process`'s
handlers. -/
theorem send_video_ne_floodWait (f : ℕ → Option PExc)
    (res : DownloadResult) (v : ℚ) :
    (send_video f res).2 ≠ some (PExc.floodWait v) := by
  cases hres : res.file_path with
  | none => simp [send_video, hres]
  | some p =>
    simp only [send_video, hres]
    exact sendLoop_ne_floodWait f max_retries 0 v

/-- The `except FloodWait` handler of `process` (which would report the
rate-limited failure) is unreachable from delivery: no run of `process`
ever emits the rate-limited error message. -/
theorem processBody_no_rateLimited (env : ProcEnv) (disk0 : List String) :
    Ev.sendErr ErrMsg.rateLimited ∉ (processBody env disk0).1 := by
  by_cases hA : env.info.is_available = false
  · simp [processBody, hA]
  · rw [Bool.not_eq_false] at hA
    by_cases hD : 7200 < env.info.duration
    · simp [processBody, hA, hD]
    · rcases hdl : download env.fetch disk0 with ⟨res, disk1⟩
      by_cases hsucc : res.success = false
      · simp [processBody, hA, hD, hdl, hsucc]
      · cases hs2 : (send_video env.send res).2 with
        | none =>
          simp [processBody, hA, hD, hdl, hsucc, hs2]
          exact sendErr_not_mem_send_video env.send res ErrMsg.rateLimited
        | some exc =>
          cases exc with
          | floodWait v => exact absurd hs2 (send_video_ne_floodWait env.send res v)
          | rpcError m =>
            simp [processBody, hA, hD, hdl, hsucc, hs2]
            exact sendErr_not_mem_send_video env.send res ErrMsg.rateLimited
          | other m =>
            simp [processBody, hA, hD, hdl, hsucc, hs2]
            exact sendErr_not_mem_send_video env.send res ErrMsg.rateLimited

theorem process_no_rateLimited (env : ProcEnv) (disk0 : List String) :
    Ev.sendErr ErrMsg.rateLimited ∉ (process env disk0).events := by
  intro hmem
  apply processBody_no_rateLimited env disk0
  simp only [process] at hmem
  cases hb : (processBody env disk0).2.1 with
  | none => rw [hb] at hmem; exact hmem
  | some nm =>
    by_cases hd : nm ∈ (processBody env disk0).2.2
    · rw [hb] at hmem
      simp [hd] at hmem
      exact hmem
    · rw [hb] at hmem
      simp [hd] at hmem
      exact hmem

/-- C3 counterexample: delivery raises `FloodWait(45)` on the first
attempt and the next attempt succeeds.  The claim says the processor
sleeps 45 seconds and then reports a terminal rate-limited failure
without retrying the send; the code instead catches the `FloodWait`
inside `_send_video`'s retry loop, sleeps 45 seconds, retries the send
(`attemptSend 1`), and finishes the job successfully with no failure
message of any kind. -/
theorem C3_counterexample :
    (process
      { info := { id := "v", title := "t", duration := 90, uploader := "u",
                  is_available := true, error_message := none },
        fetch := FetchOutcome.file "f.mp4" 1000 "t" 90,
        send := fun i => if i = 0 then some (PExc.floodWait 45) else none }
      []).events
      = [Ev.status "Getting video info", Ev.status "Downloading",
         Ev.downloadInvoked, Ev.status "Uploading", Ev.attemptSend 0,
         Ev.slept 45, Ev.attemptSend 1, Ev.statusDeleted, Ev.jobLogged,
         Ev.fileDeleted "f.mp4"]
    ∧ Ev.attemptSend 1 ∈ (process
      { info := { id := "v", title := "t", duration := 90, uploader := "u",
                  is_available := true, error_message := none },
        fetch := FetchOutcome.file "f.mp4" 1000 "t" 90,
        send := fun i => if i = 0 then some (PExc.floodWait 45) else none }
      []).events
    ∧ Ev.sendErr ErrMsg.rateLimited ∉ (process
      { info := { id := "v", title := "t", duration := 90, uploader := "u",
                  is_available := true, error_message := none },
        fetch := FetchOutcome.file "f.mp4" 1000 "t" 90,
        send := fun i => if i = 0 then some (PExc.floodWait 45) else none }
      []).events := by
  refine ⟨?_, ?_, ?_⟩ <;> decide

/-- C3 as amended: when a delivery attempt raises `FloodWait(v)` the
processor sleeps exactly `v` seconds and then retries the send if any
of the 3 attempts remain; a `FloodWait` on the final attempt makes
`_send_video` return silently (no failure reported); and the terminal
rate-limited failure message is never produced by a delivery
`FloodWait` (that handler of `process` is unreachable from delivery). -/
theorem C3_floodwait_sleep_retry_amended :
    (∀ (f : ℕ → Option PExc) (n i : ℕ) (v : ℚ),
      f i = some (PExc.floodWait v) → n ≠ 0 →
      ∃ tl, (sendLoop f (n + 1) i).1
        = Ev.attemptSend i :: Ev.slept v :: Ev.attemptSend (i + 1) :: tl)
    ∧ (∀ (f : ℕ → Option PExc) (i : ℕ) (v : ℚ),
      f i = some (PExc.floodWait v) →
      sendLoop f 1 i = ([Ev.attemptSend i, Ev.slept v], none))
    ∧ (∀ (env : ProcEnv) (disk0 : List String),
      Ev.sendErr ErrMsg.rateLimited ∉ (process env disk0).events) :=
  ⟨sendLoop_flood_retries, sendLoop_flood_final, process_no_rateLimited⟩

/-- Witness for the amended C3 at concrete inputs. -/
theorem C3_witness :
    (∃ tl, (sendLoop
        (fun i => if i = 0 then some (PExc.floodWait 7) else none) 3 0).1
      = Ev.attemptSend 0 :: Ev.slept 7 :: Ev.attemptSend 1 :: tl)
    ∧ sendLoop (fun _ => some (PExc.floodWait 9)) 1 2
      = ([Ev.attemptSend 2, Ev.slept 9], none)
    ∧ Ev.sendErr ErrMsg.rateLimited ∉ (process
        { info := { id := "v", title := "t", duration := 90, uploader := "u",
                    is_available := true, error_message := none },
          fetch := FetchOutcome.noOutput, send := fun _ => none } []).events :=
  ⟨C3_floodwait_sleep_retry_amended.1
      (fun i => if i = 0 then some (PExc.floodWait 7) else none) 2 0 7
      (by decide) (by decide),
   C3_floodwait_sleep_retry_amended.2.1
      (fun _ => some (PExc.floodWait 9)) 2 9 rfl,
   C3_floodwait_sleep_retry_amended.2.2 _ []⟩

/-- C6: delivery is attempted at most 3 times; a transient
(non-rate-limit) failure on a non-final attempt is followed by a sleep
of `2 ^ attempt` seconds and the next attempt; and when all three
attempts fail the last exception escapes the loop and the job ends with
a terminal error message instead of the completion log. -/
theorem C6_delivery_retry_bounded :
    (∀ f : ℕ → Option PExc, attemptsOf (sendLoop f 3 0).1 ≤ 3)
    ∧ (∀ (f : ℕ → Option PExc) (n i : ℕ) (e : PExc),
      f i = some e → (∀ v, e ≠ PExc.floodWait v) → n ≠ 0 →
      ∃ tl, (sendLoop f (n + 1) i).1
        = Ev.attemptSend i :: Ev.slept ((2 : ℚ) ^ i)
          :: Ev.attemptSend (i + 1) :: tl)
    ∧ (∀ (f : ℕ → Option PExc) (e0 e1 e2 : PExc),
      f 0 = some e0 → f 1 = some e1 → f 2 = some e2 →
      (∀ v, e0 ≠ PExc.floodWait v) → (∀ v, e1 ≠ PExc.floodWait v) →
      (∀ v, e2 ≠ PExc.floodWait v) →
      sendLoop f 3 0 = ([Ev.attemptSend 0, Ev.slept 1, Ev.attemptSend 1,
        Ev.slept 2, Ev.attemptSend 2], some e2))
    ∧ (∀ (env : ProcEnv) (disk0 : List String) (name : String) (size : ℤ)
        (t : String) (d : ℤ) (e0 e1 e2 : PExc),
      env.info.is_available = true → ¬ 7200 < env.info.duration →
      env.fetch = FetchOutcome.file name size t d →
      ¬ TELEGRAM_FILE_SIZE_LIMIT < size →
      env.send 0 = some e0 → env.send 1 = some e1 → env.send 2 = some e2 →
      (∀ v, e0 ≠ PExc.floodWait v) → (∀ v, e1 ≠ PExc.floodWait v) →
      (∀ v, e2 ≠ PExc.floodWait v) →
      Ev.jobLogged ∉ (process env disk0).events
      ∧ (Ev.sendErr ErrMsg.telegramError ∈ (process env disk0).events
        ∨ Ev.sendErr ErrMsg.genericError ∈ (process env disk0).events)) := by
  refine ⟨fun f => attemptsOf_sendLoop_le f 3 0, sendLoop_err_backoff,
    sendLoop_three_errors, ?_⟩
  intro env disk0 name size t d e0 e1 e2 hA hD hf hS h0 h1 h2 hnf0 hnf1 hnf2
  cases e2 with
  | floodWait v => exact absurd rfl (hnf2 v)
  | rpcError m2 =>
    have hs3 := sendLoop_three_errors env.send e0 e1 (PExc.rpcError m2)
      h0 h1 h2 hnf0 hnf1 (by intro v h; cases h)
    have hb : processBody env disk0
        = ([Ev.status "Getting video info", Ev.status "Downloading",
            Ev.downloadInvoked, Ev.status "Uploading", Ev.attemptSend 0,
            Ev.slept 1, Ev.attemptSend 1, Ev.slept 2, Ev.attemptSend 2,
            Ev.sendErr ErrMsg.telegramError], some name, name :: disk0) := by
      simp [processBody, download, hf, hA, hD, hS, send_video, max_retries, hs3]
    have hp : (process env disk0).events
        = [Ev.status "Getting video info", Ev.status "Downloading",
            Ev.downloadInvoked, Ev.status "Uploading", Ev.attemptSend 0,
            Ev.slept 1, Ev.attemptSend 1, Ev.slept 2, Ev.attemptSend 2,
            Ev.sendErr ErrMsg.telegramError, Ev.fileDeleted name] := by
      simp [process, hb]
    rw [hp]
    exact ⟨by simp, Or.inl (by simp)⟩
  | other m2 =>
    have hs3 := sendLoop_three_errors env.send e0 e1 (PExc.other m2)
      h0 h1 h2 hnf0 hnf1 (by intro v h; cases h)
    have hb : processBody env disk0
        = ([Ev.status "Getting video info", Ev.status "Downloading",
            Ev.downloadInvoked, Ev.status "Uploading", Ev.attemptSend 0,
            Ev.slept 1, Ev.attemptSend 1, Ev.slept 2, Ev.attemptSend 2,
            Ev.sendErr ErrMsg.genericError], some name, name :: disk0) := by
      simp [processBody, download, hf, hA, hD, hS, send_video, max_retries, hs3]
    have hp : (process env disk0).events
        = [Ev.status "Getting video info", Ev.status "Downloading",
            Ev.downloadInvoked, Ev.status "Uploading", Ev.attemptSend 0,
            Ev.slept 1, Ev.attemptSend 1, Ev.slept 2, Ev.attemptSend 2,
            Ev.sendErr ErrMsg.genericError, Ev.fileDeleted name] := by
      simp [process, hb]
    rw [hp]
    exact ⟨by simp, Or.inr (by simp)⟩

/-- Witness for C6 at concrete inputs: a run whose three attempts all
raise a generic transport error. -/
theorem C6_witness :
    (attemptsOf (sendLoop (fun _ => some (PExc.other "e")) 3 0).1 ≤ 3)
    ∧ sendLoop (fun _ => some (PExc.other "e")) 3 0
      = ([Ev.attemptSend 0, Ev.slept 1, Ev.attemptSend 1, Ev.slept 2,
          Ev.attemptSend 2], some (PExc.other "e"))
    ∧ Ev.jobLogged ∉ (process
        { info := { id := "v", title := "t", duration := 90, uploader := "u",
                    is_available := true, error_message := none },
          fetch := FetchOutcome.file "f.mp4" 1000 "t" 90,
          send := fun _ => some (PExc.other "e") } []).events :=
  ⟨C6_delivery_retry_bounded.1 (fun _ => some (PExc.other "e")),
   C6_delivery_retry_bounded.2.2.1 (fun _ => some (PExc.other "e"))
      (PExc.other "e") (PExc.other "e") (PExc.other "e") rfl rfl rfl
      (by intro v h; cases h) (by intro v h; cases h) (by intro v h; cases h),
   (C6_delivery_retry_bounded.2.2.2
      { info := { id := "v", title := "t", duration := 90, uploader := "u",
                  is_available := true, error_message := none },
        fetch := FetchOutcome.file "f.mp4" 1000 "t" 90,
        send := fun _ => some (PExc.other "e") } [] "f.mp4" 1000 "t" 90
      (PExc.other "e") (PExc.other "e") (PExc.other "e") rfl (by norm_num)
      rfl (by norm_num [TELEGRAM_FILE_SIZE_LIMIT]) rfl rfl rfl
      (by intro v h; cases h) (by intro v h; cases h)
      (by intro v h; cases h)).1⟩

/-! ## Message handler (src/bot/handlers.py) -/

structure BotState where
  rl : RateLimiter
  queue : List DownloadJob
  replies : List String

/-- `handle_message`: skip empty texts and commands, extract URLs,
check the rate limit, normalize only the first URL, record exactly one
request, enqueue exactly one job, reply, and read `get_remaining` (which
prunes once more) for the final log line. -/
def handle_message (st : BotState) (now : ℚ) (user chat msgid : ℤ)
    (text : String) : BotState :=
  if text = "" then st
  else if pyStartsWith text "/" = true then st
  else
    match extract_urls_from_text text with
    | [] => st
    | url :: _ =>
      let ar := st.rl.is_allowed now user
      if ar.1 = false then
        let rr := ar.2.get_reset_time now user
        { st with
            rl := rr.2,
            replies := st.replies ++ ["Too many requests. Please wait."] }
      else
        match normalize_youtube_url url with
        | none =>
          { st with
              rl := ar.2,
              replies := st.replies ++ ["Invalid YouTube URL"] }
        | some nurl =>
          let rl2 := ar.2.record_request now user
          let q2 := st.queue ++ [{ user_id := user, chat_id := chat,
                                   message_id := msgid, url := nurl }]
          let pos := q2.length
          let reply := if 1 < pos then "Added to queue"
            else "Processing your video"
          let rl3 := (rl2.get_remaining now user).2
          { rl := rl3, queue := q2, replies := st.replies ++ [reply] }

/-- The per-user request list after the handler's
cleanup-record-cleanup sequence: the live list plus the new timestamp. -/
theorem handler_requests_after (st : RateLimiter) (now : ℚ) (u : ℤ)
    (hw : 0 < st.window_seconds) :
    ((((st.cleanup_old_requests now u).record_request now u).cleanup_old_requests
        now u).requests u)
      = st.liveList now u ++ [now] := by
  have hp : decide (now - st.window_seconds < now) = true := by
    simp
    linarith
  have hfun : ∀ (st' : RateLimiter), st'.livePred now
      = fun ts => decide (now - st'.window_seconds < ts) := fun _ => rfl
  simp only [RateLimiter.cleanup_old_requests, RateLimiter.record_request,
    RateLimiter.liveList, hfun]
  simp [List.filter_append, List.filter_filter, hp]
  exact hw


/-- C10: when a non-command message contains more than one valid media
URL and the user passes the rate limit, exactly one job is created — for
the first URL found, in canonical form — and exactly one rate-limit slot
is consumed for the message (the user's stored timestamps become the
live list plus one new entry); the remaining URLs are ignored. -/
theorem C10_first_url_one_job_one_slot (st : BotState) (now : ℚ)
    (user chat msgid : ℤ) (text : String) (u0 u1 : String)
    (rest : List String)
    (hurls : extract_urls_from_text text = u0 :: u1 :: rest)
    (hcmd : pyStartsWith text "/" = false)
    (hallow : (st.rl.is_allowed now user).1 = true)
    (hw : 0 < st.rl.window_seconds) :
    ∃ vid, extract_video_id u0 = some vid
    ∧ (handle_message st now user chat msgid text).queue
      = st.queue ++ [{ user_id := user, chat_id := chat, message_id := msgid,
                       url := "https://www.youtube.com/watch?v=" ++ vid }]
    ∧ ((handle_message st now user chat msgid text).rl.requests user)
      = st.rl.liveList now user ++ [now]
    ∧ ((handle_message st now user chat msgid text).rl.requests user).length
      = (st.rl.liveList now user).length + 1 := by
  have hne : text ≠ "" := by
    rintro rfl
    rw [show extract_urls_from_text "" = [] from by decide] at hurls
    cases hurls
  have hmem : u0 ∈ extract_urls_from_text text := by
    rw [hurls]
    exact List.mem_cons_self _ _
  have hval := extract_urls_valid hmem
  rw [is_valid_youtube_url] at hval
  obtain ⟨vid, hvid⟩ := Option.isSome_iff_exists.mp hval
  have hnorm : normalize_youtube_url u0
      = some ("https://www.youtube.com/watch?v=" ++ vid) := by
    simp [normalize_youtube_url, hvid]
  have hq : (handle_message st now user chat msgid text).queue
      = st.queue ++ [{ user_id := user, chat_id := chat, message_id := msgid,
                       url := "https://www.youtube.com/watch?v=" ++ vid }] := by
    simp only [handle_message, if_neg hne, hurls, hnorm]
    simp [hcmd, hallow]
  have hreq : (handle_message st now user chat msgid text).rl.requests user
      = st.rl.liveList now user ++ [now] := by
    have hafter := handler_requests_after st.rl now user hw
    simp only [handle_message, if_neg hne, hurls, hnorm]
    simp only [hcmd, Bool.false_eq_true, if_false, hallow, Bool.true_eq_false]
    exact hafter
  exact ⟨vid, hvid, hq, hreq, by rw [hreq]; simp⟩

/-- Witness for C10: a message carrying the same video id twice; one job
for the first URL, one new timestamp. -/
theorem C10_witness :
    ∃ vid, extract_video_id "https://youtu.be/dQw4w9WgXcQ" = some vid
    ∧ (handle_message ⟨⟨20, 3600, fun _ => []⟩, [], []⟩ 500 1 2 3
        "https://youtu.be/dQw4w9WgXcQ https://youtu.be/dQw4w9WgXcQ").queue
      = [] ++ [{ user_id := 1, chat_id := 2, message_id := 3,
                 url := "https://www.youtube.com/watch?v=" ++ vid }]
    ∧ ((handle_message ⟨⟨20, 3600, fun _ => []⟩, [], []⟩ 500 1 2 3
        "https://youtu.be/dQw4w9WgXcQ https://youtu.be/dQw4w9WgXcQ").rl.requests 1)
      = (RateLimiter.mk 20 3600 (fun _ => [])).liveList 500 1 ++ [500]
    ∧ ((handle_message ⟨⟨20, 3600, fun _ => []⟩, [], []⟩ 500 1 2 3
        "https://youtu.be/dQw4w9WgXcQ https://youtu.be/dQw4w9WgXcQ").rl.requests 1).length
      = ((RateLimiter.mk 20 3600 (fun _ => [])).liveList 500 1).length + 1 :=
  C10_first_url_one_job_one_slot ⟨⟨20, 3600, fun _ => []⟩, [], []⟩ 500 1 2 3
    "https://youtu.be/dQw4w9WgXcQ https://youtu.be/dQw4w9WgXcQ"
    "https://youtu.be/dQw4w9WgXcQ" "https://youtu.be/dQw4w9WgXcQ" []
    (by decide) (by decide) (by decide) (by norm_num)
